import Mathlib

/-!
Verification development for the cache-repository core of the
`newcore-network/go-stdlib` repository: the serialization policy
(`isPrimitiveType`, `serialize`, `deserialize`), the generic cache
repository (`abstractCacheRepositoryImpl`, `CreateCacheRepository`),
the command pipeline (`CachePipeline`), and the database connection
bootstrapper (`NewConnection`).

The Go code is shallowly embedded: Go's dynamic values (`any`) become the
inductive `GoVal`, runtime types become `GoType`, Go's `error` values
become `GoErr`, a function returning `(T, error)` becomes a `PRes`/`MRes`
result that also distinguishes a runtime panic, and calls into the remote
store are recorded as `StoreCall`s answered by a `ClientModel` oracle.
The external JSON library (sonic) is not part of the repository; its
`Marshal`/`Unmarshal` entry points are passed in as explicit function
parameters.
-/

namespace GoStdlib

/-- Runtime types of the Go program that are relevant here: the primitive
scalars handled by the serialization policy, pointers, a struct kind for
composite values, and the empty interface type `any`. -/
inductive GoType where
  | stringT
  | intT
  | float64T
  | boolT
  | bytesT
  | ptrT (elem : GoType)
  | structT
  | anyT
  deriving DecidableEq, Repr

/-- Dynamic Go values.  A float64 is carried by its `%v` rendering (its
numeric internals are never inspected by the code under study); a struct
value is carried opaquely by a payload tag; `ptr` is a non-nil pointer,
`nilPtr t` a typed nil pointer, and `nilAny` the nil interface value. -/
inductive GoVal where
  | str (s : String)
  | int (n : Int)
  | float (rendering : String)
  | boolV (b : Bool)
  | bytes (bs : List Nat)
  | ptr (v : GoVal)
  | nilPtr (elem : GoType)
  | structV (payload : String)
  | nilAny
  deriving DecidableEq, Repr

/-- Go error values: a plain message (`errors.New`) or a wrapped error
(`fmt.Errorf` with `%w`). -/
inductive GoErr where
  | msg (s : String)
  | wrap (context : String) (inner : GoErr)
  deriving DecidableEq, Repr

/-- Result of a Go call returning `(value, error)`, with an explicit case
for a runtime panic. -/
inductive PRes (α : Type) where
  | ret (value : α) (err : Option GoErr)
  | panicked (message : String)
  deriving DecidableEq, Repr

/-- The dynamic type of a non-nil-interface Go value. -/
def dynType : GoVal → GoType
  | .str _ => .stringT
  | .int _ => .intT
  | .float _ => .float64T
  | .boolV _ => .boolT
  | .bytes _ => .bytesT
  | .ptr v => .ptrT (dynType v)
  | .nilPtr t => .ptrT t
  | .structV _ => .structT
  | .nilAny => .anyT

/-- The zero value of a Go type (`var x T`). -/
def zeroValue : GoType → GoVal
  | .stringT => .str ""
  | .intT => .int 0
  | .float64T => .float "0"
  | .boolT => .boolV false
  | .bytesT => .bytes []
  | .ptrT t => .nilPtr t
  | .structT => .structV ""
  | .anyT => .nilAny

/-- Model of Go's `new(T)`: a non-nil pointer to the zero value of `T`. -/
def goNew (t : GoType) : GoVal :=
  .ptr (zeroValue t)

/-- Panic message of a failed type assertion. -/
def interfaceConversionPanic : String :=
  "interface conversion"

/-- Panic message of a nil pointer dereference. -/
def nilDerefPanic : String :=
  "runtime error: invalid memory address or nil pointer dereference"

/-- Model of Go's single-result type assertion `x.(T)`: it panics on the
nil interface value, succeeds for any value when `T` is the interface type
`any`, and otherwise succeeds exactly when the dynamic type of `x` is `T`. -/
def typeAssert (t : GoType) (v : GoVal) : PRes GoVal :=
  match v with
  | .nilAny => .panicked interfaceConversionPanic
  | v => if t = .anyT ∨ dynType v = t then .ret v none
         else .panicked interfaceConversionPanic

/-- Rendering used by `fmt.Sprintf("%v", value)` on the primitive scalar
kinds (string, int, float64, bool, `[]byte`).  `serialize` only applies it
to values classified primitive, so the remaining cases are unreachable
there. -/
def goFormat : GoVal → String
  | .str s => s
  | .int n => toString n
  | .float rendering => rendering
  | .boolV b => if b then "true" else "false"
  | .bytes bs => "[" ++ String.intercalate " " (bs.map toString) ++ "]"
  | _ => ""

/-- Type of the external `sonic.Marshal` entry point, passed in as a
parameter: it turns a value into its JSON byte string or fails. -/
def Marshal : Type :=
  GoVal → Except GoErr String

/-- Type of the external `sonic.Unmarshal` entry point, passed in as a
parameter: it decodes a byte string into a value of the target type or
fails. -/
def Unmarshal : Type :=
  GoType → String → Except GoErr GoVal

/-- Embedding of `isPrimitiveType` (abstractCacheRepository.go:306): a
type switch on the dynamic type of the argument with cases
`string, int, float64, bool, []byte`. -/
def isPrimitiveType (value : GoVal) : Bool :=
  match value with
  | .str _ => true
  | .int _ => true
  | .float _ => true
  | .boolV _ => true
  | .bytes _ => true
  | _ => false

/-- Embedding of `serialize` (abstractCacheRepository.go:316): primitive
values are rendered with `fmt.Sprintf("%v", value)`, everything else goes
through `sonic.Marshal`. -/
def serialize (marshal : Marshal) (value : GoVal) : Except GoErr String :=
  if isPrimitiveType value then .ok (goFormat value)
  else marshal value

/-- Embedding of `deserialize` (abstractCacheRepository.go:324): in the
primitive branch the data is converted to a string and type-asserted to
`T` via `any(string(data)).(T)`; otherwise it is JSON-decoded by
`sonic.Unmarshal`, wrapping a decode failure. -/
def deserialize (unmarshal : Unmarshal) (t : GoType) (data : String)
    (isPrimitive : Bool) : PRes GoVal :=
  if isPrimitive then
    typeAssert t (.str data)
  else
    match unmarshal t data with
    | .error e => .ret (zeroValue t) (some (.wrap "failed to deserialize value" e))
    | .ok v => .ret v none

/-- A marshal oracle used where the marshaller is irrelevant. -/
def noMarshal : Marshal :=
  fun _ => .error (.msg "marshal not invoked")

/-- An unmarshal oracle used where the unmarshaller is irrelevant. -/
def noUnmarshal : Unmarshal :=
  fun _ _ => .error (.msg "unmarshal not invoked")

/-- A call issued by the repository to the remote store, as recorded by a
method's trace.  Go's maps are carried as association lists in iteration
order. -/
inductive StoreCall where
  | get (key : String)
  | scan (cursor : Nat) (pattern : String) (count : Nat)
  | set (key data : String) (expiration : Int)
  | existsKey (key : String)
  | del (key : String)
  | hget (key field : String)
  | hscan (key : String) (cursor : Nat) (pattern : String) (count : Int)
  | hgetall (key : String)
  | hmget (key : String) (fields : List String)
  | hset (key field data : String)
  | hmset (key : String) (fields : List (String × String))
  | hdel (key field : String)
  | hexists (key field : String)
  deriving DecidableEq, Repr

/-- Result of a repository method: the returned value, the returned error,
and the trace of store calls it issued; or a runtime panic. -/
inductive MRes (α : Type) where
  | ret (value : α) (err : Option GoErr) (calls : List StoreCall)
  | panicked (message : String)
  deriving DecidableEq, Repr

/-- Reply of the store to a single-value read: a value, the `redis.Nil`
sentinel for an absent key/field, or a transport failure. -/
inductive RedisReply where
  | ok (s : String)
  | nilReply
  | fail (e : GoErr)
  deriving DecidableEq, Repr

/-- Oracle modelling the already-connected `*redis.Client`: one reply
function per client operation the repository uses.  `Scan` and `HScan`
return the batch and the next cursor. -/
structure ClientModel where
  Get : String → RedisReply
  Scan : Nat → String → Nat → Except GoErr (List String × Nat)
  Set : String → String → Int → Option GoErr
  Exists : String → Except GoErr Int
  Del : String → Option GoErr
  HGet : String → String → RedisReply
  HScan : String → Nat → String → Int → Except GoErr (List String × Nat)
  HGetAll : String → Except GoErr (List (String × String))
  HMGet : String → List String → Except GoErr (List (Option String))
  HSet : String → String → String → Option GoErr
  HMSet : String → List (String × String) → Option GoErr
  HDel : String → String → Option GoErr
  HExists : String → String → Except GoErr Bool

/-- Dynamic behaviour of the `AbstractCacheRepository[T]` interface value
stored in the repository's `self` field when it is a different object than
the repository itself (a concrete subtype).  Each field is the subtype's
implementation of the method, modelled as a total function. -/
structure SelfMethods where
  Get : String → MRes GoVal
  GetKeysByPatterns : String → MRes (List String)
  Set : String → GoVal → Int → MRes Unit
  Del : String → MRes Unit
  Exists : String → MRes Bool
  HGet : String → String → MRes (Option GoVal)
  HGetAll : String → MRes (List (String × GoVal))
  HScan : String → String → Int → MRes (List (String × String))
  HGetFields : String → List String → MRes (List (String × GoVal))
  HSet : String → String → GoVal → MRes Unit
  HMSet : String → List (String × GoVal) → MRes Unit
  HDel : String → String → MRes Unit
  HExists : String → String → MRes Bool

/-- Embedding of the `abstractCacheRepositoryImpl[T]` struct
(abstractCacheRepository.go:77).  The Go pointer fields `client` and the
interface fields `ctx` and `self` may be nil, hence the `Option`s; `self =
none` models the case `repo.self == repo` (the stored interface is the
repository itself), `self = some s` the case `repo.self != repo`.  The
value type parameter `T` is carried as the field `valueType`. -/
structure abstractCacheRepositoryImpl where
  client : Option ClientModel
  ctx : Option Unit
  isPrimitive : Bool
  self : Option SelfMethods
  valueType : GoType

namespace abstractCacheRepositoryImpl

/-- Embedding of `Get` (abstractCacheRepository.go:85): forward to `self`
when it differs from the receiver; otherwise fetch the key, map the
`redis.Nil` reply to the zero value with a nil error, propagate transport
failures, and decode found data with `deserialize` under the repository's
`isPrimitive` flag. -/
def Get (unmarshal : Unmarshal) (repo : abstractCacheRepositoryImpl)
    (key : String) : MRes GoVal :=
  match repo.self with
  | some s => s.Get key
  | none =>
    match repo.client with
    | none => .panicked nilDerefPanic
    | some c =>
      match c.Get key with
      | .nilReply => .ret (zeroValue repo.valueType) none [.get key]
      | .fail e => .ret (zeroValue repo.valueType) (some e) [.get key]
      | .ok data =>
        match deserialize unmarshal repo.valueType data repo.isPrimitive with
        | .ret v e => .ret v e [.get key]
        | .panicked m => .panicked m

/-- Loop body of `GetKeysByPatterns` (abstractCacheRepository.go:111): scan
from the current cursor with count 100, append the batch, stop when the
returned cursor is 0.  The loop in Go is unbounded; `fuel` bounds the
recursion here and `none` means the loop did not finish within `fuel`
iterations. -/
def scanLoop (c : ClientModel) (pattern : String) :
    Nat → Nat → List String → List StoreCall → Option (MRes (List String))
  | 0, _, _, _ => none
  | fuel + 1, cursor, keys, calls =>
    match c.Scan cursor pattern 100 with
    | .error e => some (.ret [] (some e) (calls ++ [.scan cursor pattern 100]))
    | .ok (scanKeys, newCursor) =>
      if newCursor = 0 then
        some (.ret (keys ++ scanKeys) none (calls ++ [.scan cursor pattern 100]))
      else
        scanLoop c pattern fuel newCursor (keys ++ scanKeys)
          (calls ++ [.scan cursor pattern 100])

/-- Embedding of `GetKeysByPatterns` (abstractCacheRepository.go:105):
self-forwarding check, then the cursor loop starting at 0. -/
def GetKeysByPatterns (repo : abstractCacheRepositoryImpl)
    (pattern : String) (fuel : Nat) : Option (MRes (List String)) :=
  match repo.self with
  | some s => some (s.GetKeysByPatterns pattern)
  | none =>
    match repo.client with
    | none => some (.panicked nilDerefPanic)
    | some c => scanLoop c pattern fuel 0 [] []

/-- Embedding of `Set` (abstractCacheRepository.go:126): self-forwarding
check, serialize the value, then store it with the expiration. -/
def Set (marshal : Marshal) (repo : abstractCacheRepositoryImpl)
    (key : String) (value : GoVal) (expiration : Int) : MRes Unit :=
  match repo.self with
  | some s => s.Set key value expiration
  | none =>
    match serialize marshal value with
    | .error e => .ret () (some e) []
    | .ok data =>
      match repo.client with
      | none => .panicked nilDerefPanic
      | some c => .ret () (c.Set key data expiration) [.set key data expiration]

/-- Embedding of `Exists` (abstractCacheRepository.go:138). -/
def Exists (repo : abstractCacheRepositoryImpl) (key : String) : MRes Bool :=
  match repo.self with
  | some s => s.Exists key
  | none =>
    match repo.client with
    | none => .panicked nilDerefPanic
    | some c =>
      match c.Exists key with
      | .error e => .ret false (some e) [.existsKey key]
      | .ok count => .ret (decide (count > 0)) none [.existsKey key]

/-- Embedding of `Del` (abstractCacheRepository.go:150). -/
def Del (repo : abstractCacheRepositoryImpl) (key : String) : MRes Unit :=
  match repo.self with
  | some s => s.Del key
  | none =>
    match repo.client with
    | none => .panicked nilDerefPanic
    | some c => .ret () (c.Del key) [.del key]

/-- Embedding of `HGet` (abstractCacheRepository.go:158): the `redis.Nil`
reply yields `(nil, nil)`; a found value is JSON-decoded into `any`. -/
def HGet (unmarshal : Unmarshal) (repo : abstractCacheRepositoryImpl)
    (key field : String) : MRes (Option GoVal) :=
  match repo.self with
  | some s => s.HGet key field
  | none =>
    match repo.client with
    | none => .panicked nilDerefPanic
    | some c =>
      match c.HGet key field with
      | .nilReply => .ret none none [.hget key field]
      | .fail e => .ret none (some e) [.hget key field]
      | .ok data =>
        match unmarshal .anyT data with
        | .error e => .ret none (some e) [.hget key field]
        | .ok v => .ret (some v) none [.hget key field]

/-- Pairing of the flat field/value list returned by the store's `HScan`
(abstractCacheRepository.go:186): `fields[i]` maps to `fields[i+1]` for
even `i`.  An odd-length list makes the Go loop read one past the end, so
that case is a panic (modelled as `none`). -/
def hscanPairs : List String → Option (List (String × String))
  | [] => some []
  | _ :: [] => none
  | f :: v :: rest => (hscanPairs rest).map (fun ps => (f, v) :: ps)

/-- Loop body of `HScan` (abstractCacheRepository.go:180), bounded by
`fuel` like `scanLoop`. -/
def hscanLoop (c : ClientModel) (key pattern : String) (count : Int) :
    Nat → Nat → List (String × String) → List StoreCall →
    Option (MRes (List (String × String)))
  | 0, _, _, _ => none
  | fuel + 1, cursor, acc, calls =>
    match c.HScan key cursor pattern count with
    | .error e => some (.ret [] (some e) (calls ++ [.hscan key cursor pattern count]))
    | .ok (fields, newCursor) =>
      match hscanPairs fields with
      | none => some (.panicked "runtime error: index out of range")
      | some pairs =>
        if newCursor = 0 then
          some (.ret (acc ++ pairs) none (calls ++ [.hscan key cursor pattern count]))
        else
          hscanLoop c key pattern count fuel newCursor (acc ++ pairs)
            (calls ++ [.hscan key cursor pattern count])

/-- Embedding of `HScan` (abstractCacheRepository.go:176).  Note: unlike
the other operations, the source has no `repo.self != repo` forwarding
check here, so the stored `self` plays no role. -/
def HScan (repo : abstractCacheRepositoryImpl) (key pattern : String)
    (count : Int) (fuel : Nat) : Option (MRes (List (String × String))) :=
  match repo.client with
  | none => some (.panicked nilDerefPanic)
  | some c => hscanLoop c key pattern count fuel 0 [] []

/-- Field-wise JSON decoding used by `HGetAll`
(abstractCacheRepository.go:206): the first failing field aborts with a
wrapped error and a nil map. -/
def hgetallDecode (unmarshal : Unmarshal) :
    List (String × String) → Except GoErr (List (String × GoVal))
  | [] => .ok []
  | (k, v) :: rest =>
    match unmarshal .anyT v with
    | .error e => .error (.wrap ("failed to deserialize field " ++ k) e)
    | .ok value =>
      match hgetallDecode unmarshal rest with
      | .error e => .error e
      | .ok fields => .ok ((k, value) :: fields)

/-- Embedding of `HGetAll` (abstractCacheRepository.go:200).  Note: like
`HScan`, the source has no `repo.self != repo` forwarding check here. -/
def HGetAll (unmarshal : Unmarshal) (repo : abstractCacheRepositoryImpl)
    (key : String) : MRes (List (String × GoVal)) :=
  match repo.client with
  | none => .panicked nilDerefPanic
  | some c =>
    match c.HGetAll key with
    | .error e => .ret [] (some e) [.hgetall key]
    | .ok result =>
      match hgetallDecode unmarshal result with
      | .error e => .ret [] (some e) [.hgetall key]
      | .ok fields => .ret fields none [.hgetall key]

/-- Decoding loop of `HGetFields` (abstractCacheRepository.go:225): walk
the requested fields against the positional `HMGet` replies, skip nil
replies, JSON-decode the rest, abort on the first failure.  A reply list
shorter than the field list makes Go index out of range, hence the panic
case. -/
def hgetFieldsDecode (unmarshal : Unmarshal) :
    List String → List (Option String) → PRes (List (String × GoVal))
  | [], _ => .ret [] none
  | _ :: _, [] => .panicked "runtime error: index out of range"
  | _ :: fs, none :: rs => hgetFieldsDecode unmarshal fs rs
  | f :: fs, some data :: rs =>
    match unmarshal .anyT data with
    | .error e => .ret [] (some (.wrap ("failed to deserialize field " ++ f) e))
    | .ok v =>
      match hgetFieldsDecode unmarshal fs rs with
      | .ret vs none => .ret ((f, v) :: vs) none
      | .ret _ (some e) => .ret [] (some e)
      | .panicked m => .panicked m

/-- Embedding of `HGetFields` (abstractCacheRepository.go:216). -/
def HGetFields (unmarshal : Unmarshal) (repo : abstractCacheRepositoryImpl)
    (key : String) (fields : List String) : MRes (List (String × GoVal)) :=
  match repo.self with
  | some s => s.HGetFields key fields
  | none =>
    match repo.client with
    | none => .panicked nilDerefPanic
    | some c =>
      match c.HMGet key fields with
      | .error e => .ret [] (some e) [.hmget key fields]
      | .ok result =>
        match hgetFieldsDecode unmarshal fields result with
        | .ret vs e => .ret vs e [.hmget key fields]
        | .panicked m => .panicked m

/-- Value encoding of `HSet` (abstractCacheRepository.go:247): a dynamic
string is stored as its raw bytes, everything else goes through
`sonic.Marshal`. -/
def hsetEncode (marshal : Marshal) (value : GoVal) : Except GoErr String :=
  match value with
  | .str s => .ok s
  | v => marshal v

/-- Embedding of `HSet` (abstractCacheRepository.go:238): self-forwarding
check, then the empty-key/field validation BEFORE any client access, then
the value encoding, then the store call. -/
def HSet (marshal : Marshal) (repo : abstractCacheRepositoryImpl)
    (key field : String) (value : GoVal) : MRes Unit :=
  match repo.self with
  | some s => s.HSet key field value
  | none =>
    if key = "" ∨ field = "" then
      .ret () (some (.msg "key and field must not be empty")) []
    else
      match hsetEncode marshal value with
      | .error e => .ret () (some e) []
      | .ok data =>
        match repo.client with
        | none => .panicked nilDerefPanic
        | some c => .ret () (c.HSet key field data) [.hset key field data]

/-- Field serialization loop of `HMSet` (abstractCacheRepository.go:266):
dynamic strings pass through unchanged, other values are marshalled to a
string; the first marshal failure aborts with a wrapped error. -/
def hmsetSerializeFields (marshal : Marshal) :
    List (String × GoVal) → Except GoErr (List (String × String))
  | [] => .ok []
  | (field, value) :: rest =>
    match value with
    | .str s =>
      match hmsetSerializeFields marshal rest with
      | .error e => .error e
      | .ok fs => .ok ((field, s) :: fs)
    | v =>
      match marshal v with
      | .error e => .error (.wrap ("failed to serialize field " ++ field) e)
      | .ok data =>
        match hmsetSerializeFields marshal rest with
        | .error e => .error e
        | .ok fs => .ok ((field, data) :: fs)

/-- Embedding of `HMSet` (abstractCacheRepository.go:260): self-forwarding
check, field serialization, then the store call.  Note: the source
performs no empty-key or empty-field validation here. -/
def HMSet (marshal : Marshal) (repo : abstractCacheRepositoryImpl)
    (key : String) (fields : List (String × GoVal)) : MRes Unit :=
  match repo.self with
  | some s => s.HMSet key fields
  | none =>
    match hmsetSerializeFields marshal fields with
    | .error e => .ret () (some e) []
    | .ok serializedFields =>
      match repo.client with
      | none => .panicked nilDerefPanic
      | some c =>
        .ret () (c.HMSet key serializedFields) [.hmset key serializedFields]

/-- Embedding of `HDel` (abstractCacheRepository.go:283). -/
def HDel (repo : abstractCacheRepositoryImpl) (key field : String) : MRes Unit :=
  match repo.self with
  | some s => s.HDel key field
  | none =>
    match repo.client with
    | none => .panicked nilDerefPanic
    | some c => .ret () (c.HDel key field) [.hdel key field]

/-- Embedding of `HExists` (abstractCacheRepository.go:291). -/
def HExists (repo : abstractCacheRepositoryImpl) (key field : String) : MRes Bool :=
  match repo.self with
  | some s => s.HExists key field
  | none =>
    match repo.client with
    | none => .panicked nilDerefPanic
    | some c =>
      match c.HExists key field with
      | .error e => .ret false (some e) [.hexists key field]
      | .ok b => .ret b none [.hexists key field]

end abstractCacheRepositoryImpl

/-- Embedding of `CreateCacheRepository` (abstractCacheRepository.go:335):
it stores its arguments verbatim — no nil validation of the client or the
context — and computes the `isPrimitive` flag as
`isPrimitiveType(new(T))`, i.e. on a `*T` pointer value, not on a `T`
value. -/
def CreateCacheRepository (t : GoType) (redisClient : Option ClientModel)
    (ctx : Option Unit) (self : Option SelfMethods) :
    abstractCacheRepositoryImpl :=
  { client := redisClient
    ctx := ctx
    isPrimitive := isPrimitiveType (goNew t)
    self := self
    valueType := t }

/-- A command queued on the redis pipeliner by the pipeline builders
(cachePipeline.go). -/
inductive PipeCmd where
  | hset (key field data : String)
  | hmset (key : String) (fields : List (String × String))
  | hdel (key : String) (fields : List String)
  | del (keys : List String)
  | set (key data : String) (expiration : Int)
  | expire (key : String) (expiration : Int)
  | incrBy (key : String) (amount : Int)
  | decrBy (key : String) (amount : Int)
  deriving DecidableEq, Repr

/-- Embedding of the `CachePipeline` struct (cachePipeline.go:14): the
commands queued on the wrapped pipeliner so far and the sticky error. -/
structure CachePipeline where
  queued : List PipeCmd
  err : Option GoErr
  deriving Repr

/-- Serialization loop of the pipeline's `HMSet` (cachePipeline.go:51):
every field value goes through `serialize`; the first failure aborts with
a wrapped error. -/
def pipeSerializeFields (marshal : Marshal) :
    List (String × GoVal) → Except GoErr (List (String × String))
  | [] => .ok []
  | (field, value) :: rest =>
    match serialize marshal value with
    | .error e => .error (.wrap ("failed to serialize field " ++ field) e)
    | .ok data =>
      match pipeSerializeFields marshal rest with
      | .error e => .error e
      | .ok fs => .ok ((field, data) :: fs)

namespace CachePipeline

/-- Embedding of the pipeline's `HSet` (cachePipeline.go:23).  Faithful to
the source: when validation fails the error is recorded but the method
does NOT return early, so the value is still serialized (a serialization
failure then overwrites the validation error) and, when serialization
succeeds, the command is still queued. -/
def HSet (marshal : Marshal) (p : CachePipeline) (key field : String)
    (value : GoVal) : CachePipeline :=
  if p.err.isSome then p
  else
    let p1 : CachePipeline :=
      if key = "" ∨ field = "" then
        { p with err := some (.msg "key and field must not be empty") }
      else p
    match serialize marshal value with
    | .error e => { p1 with err := some e }
    | .ok data => { p1 with queued := p1.queued ++ [.hset key field data] }

/-- Embedding of the pipeline's `HMSet` (cachePipeline.go:42): sticky
check, validation (empty key or empty field map), field serialization,
queueing. -/
def HMSet (marshal : Marshal) (p : CachePipeline) (key : String)
    (fields : List (String × GoVal)) : CachePipeline :=
  if p.err.isSome then p
  else if key = "" ∨ fields = [] then
    { p with err := some (.msg "key cannot be empty and fields must not be empty") }
  else
    match pipeSerializeFields marshal fields with
    | .error e => { p with err := some e }
    | .ok serializedFields =>
      { p with queued := p.queued ++ [.hmset key serializedFields] }

/-- Embedding of the pipeline's `HDel` (cachePipeline.go:64). -/
def HDel (p : CachePipeline) (key : String) (fields : List String) :
    CachePipeline :=
  if p.err.isSome then p
  else if key = "" ∨ fields = [] then
    { p with err := some (.msg "key cannot be empty and at least one field must be specified") }
  else { p with queued := p.queued ++ [.hdel key fields] }

/-- Embedding of the pipeline's `Del` (cachePipeline.go:76). -/
def Del (p : CachePipeline) (keys : List String) : CachePipeline :=
  if p.err.isSome then p
  else if keys = [] then
    { p with err := some (.msg "at least one key must be specified") }
  else { p with queued := p.queued ++ [.del keys] }

/-- Embedding of the pipeline's `Set` (cachePipeline.go:88). -/
def Set (marshal : Marshal) (p : CachePipeline) (key : String)
    (value : GoVal) (expiration : Int) : CachePipeline :=
  if p.err.isSome then p
  else if key = "" then
    { p with err := some (.msg "key cannot be empty") }
  else
    match serialize marshal value with
    | .error e => { p with err := some e }
    | .ok data => { p with queued := p.queued ++ [.set key data expiration] }

/-- Embedding of the pipeline's `Expire` (cachePipeline.go:108). -/
def Expire (p : CachePipeline) (key : String) (expiration : Int) :
    CachePipeline :=
  if p.err.isSome then p
  else if key = "" then
    { p with err := some (.msg "key cannot be empty") }
  else { p with queued := p.queued ++ [.expire key expiration] }

/-- Embedding of the pipeline's `IncrBy` (cachePipeline.go:121). -/
def IncrBy (p : CachePipeline) (key : String) (amount : Int) : CachePipeline :=
  if p.err.isSome then p
  else if key = "" then
    { p with err := some (.msg "key cannot be empty") }
  else { p with queued := p.queued ++ [.incrBy key amount] }

/-- Embedding of the pipeline's `DecrBy` (cachePipeline.go:134). -/
def DecrBy (p : CachePipeline) (key : String) (amount : Int) : CachePipeline :=
  if p.err.isSome then p
  else if key = "" then
    { p with err := some (.msg "key cannot be empty") }
  else { p with queued := p.queued ++ [.decrBy key amount] }

/-- Embedding of `Exec` (cachePipeline.go:147): with a sticky error it
returns that error and performs no submission; otherwise it submits the
queued batch once to the store oracle `pipeExec`.  The second component
lists the batches actually submitted to the store. -/
def Exec (p : CachePipeline)
    (pipeExec : List PipeCmd → Except GoErr (List String)) :
    Except GoErr (List String) × List (List PipeCmd) :=
  match p.err with
  | some e => (.error e, [])
  | none => (pipeExec p.queued, [p.queued])

/-- Embedding of `ExecAndDiscard` (cachePipeline.go:157). -/
def ExecAndDiscard (p : CachePipeline)
    (pipeExec : List PipeCmd → Except GoErr (List String)) :
    Option GoErr × List (List PipeCmd) :=
  match p.err with
  | some e => (some e, [])
  | none =>
    match pipeExec p.queued with
    | .error e => (some e, [p.queued])
    | .ok _ => (none, [p.queued])

end CachePipeline

/-- Handle of the relational connection (`Conn` wraps `*gorm.DB`,
database/connection.go:19); the ORM handle is modelled as an opaque
identifier. -/
structure Conn where
  Gorm : Nat
  deriving DecidableEq, Repr

/-- Embedding of `DBWrapper` (database/connection.go:24). -/
structure DBWrapper where
  Gorm : Nat
  deriving DecidableEq, Repr

/-- Observable step of the connection bootstrapper: one `driver.Connect`
attempt (by zero-based index) or one `time.Sleep` (in seconds). -/
inductive RetryEvent where
  | attempt (index : Nat)
  | sleep (seconds : Nat)
  deriving DecidableEq, Repr

/-- Retry loop of `NewConnection` (database/connection.go:38): attempt
`Connect`; on success break immediately; on failure sleep 3 seconds and
continue.  The loop body runs at most `remaining` more times; `index` is
the zero-based attempt counter.  The result is the last attempt's outcome
together with the trace of attempts and sleeps. -/
def connectLoop (connect : Nat → Except GoErr Conn) :
    Nat → Nat → Except GoErr Conn × List RetryEvent
  | _, 0 => (.error (.msg "loop not entered"), [])
  | index, remaining + 1 =>
    match connect index with
    | .ok conn => (.ok conn, [.attempt index])
    | .error e =>
      if remaining = 0 then (.error e, [.attempt index, .sleep 3])
      else
        let rest := connectLoop connect (index + 1) remaining
        (rest.1, .attempt index :: .sleep 3 :: rest.2)

/-- Embedding of `NewConnection` (database/connection.go:33): run the
retry loop with 5 attempts; on overall failure replace the error with the
fixed give-up message, on success wrap the connection. -/
def NewConnection (connect : Nat → Except GoErr Conn) :
    Except GoErr DBWrapper × List RetryEvent :=
  let r := connectLoop connect 0 5
  match r.1 with
  | .ok conn => (.ok { Gorm := conn.Gorm }, r.2)
  | .error _ => (.error (.msg "connection failed after multiple attempts"), r.2)

/-! Concrete oracles and instances used by witnesses and counterexamples. -/

/-- A store oracle on which every key is absent, every scan is exhausted
immediately, and every write succeeds. -/
def constClient : ClientModel where
  Get := fun _ => .nilReply
  Scan := fun _ _ _ => .ok ([], 0)
  Set := fun _ _ _ => none
  Exists := fun _ => .ok 0
  Del := fun _ => none
  HGet := fun _ _ => .nilReply
  HScan := fun _ _ _ _ => .ok ([], 0)
  HGetAll := fun _ => .ok []
  HMGet := fun _ fields => .ok (fields.map fun _ => none)
  HSet := fun _ _ _ => none
  HMSet := fun _ _ => none
  HDel := fun _ _ => none
  HExists := fun _ _ => .ok false

/-- A repository over a struct value type with no subtype override
(`self == repo`). -/
def plainRepo : abstractCacheRepositoryImpl :=
  CreateCacheRepository GoType.structT (some constClient) (some ()) none

/-- An empty, error-free pipeline as produced by `NewPipeline`. -/
def emptyPipeline : CachePipeline :=
  { queued := [], err := none }

/-- A pipeline-execution oracle on which every batch succeeds. -/
def pipeExecOk : List PipeCmd → Except GoErr (List String) :=
  fun _ => .ok []

/-! Claim theorems. -/

/-- C1: the spec demands `deserialize(serialize(v), true) == v` for every
primitive scalar value, but the code evaluated at the primitive value
`int 42` serializes it to the text "42" and then panics in the decode
direction, because the primitive branch of `deserialize` type-asserts the
string `"42"` to `int`. -/
theorem C1_primitive_roundtrip_panics_on_int :
    serialize noMarshal (GoVal.int 42) = Except.ok "42" ∧
    deserialize noUnmarshal GoType.intT "42" true =
      PRes.panicked interfaceConversionPanic := by
  exact ⟨rfl, rfl⟩

/-- C2: the spec says the repository's `isPrimitive` flag is true exactly
for string, numeric, boolean and raw-byte value types, but the constructor
computes `isPrimitiveType(new(T))`, i.e. on a `*T` pointer value, so the
flag stored by `CreateCacheRepository` is false for EVERY value type —
including `string`, for which `isPrimitiveType` itself (applied to a `T`
value, as `serialize` does) answers true. -/
theorem C2_constructed_isPrimitive_always_false :
    (∀ (t : GoType) (c : Option ClientModel) (x : Option Unit)
      (s : Option SelfMethods), (CreateCacheRepository t c x s).isPrimitive = false) ∧
    isPrimitiveType (zeroValue GoType.stringT) = true := by
  exact ⟨fun t c x s => rfl, rfl⟩

/-- C6 counterexample: the claim says the constructor fails (panics)
whenever the client or the context is absent, but `CreateCacheRepository`
applied to an absent client and an absent context returns a repository
bound to exactly those absent values. -/
theorem C6_constructor_accepts_nil :
    (CreateCacheRepository GoType.stringT none none none).client = none ∧
    (CreateCacheRepository GoType.stringT none none none).ctx = none := by
  exact ⟨rfl, rfl⟩

/-- C6 amended: `CreateCacheRepository` performs no validation at all: for
every combination of arguments — absent (nil) client or context included —
it returns a repository that records the given client, context and self
reference verbatim. -/
theorem C6_constructor_stores_arguments_unchecked
    (t : GoType) (c : Option ClientModel) (x : Option Unit)
    (s : Option SelfMethods) :
    (CreateCacheRepository t c x s).client = c ∧
    (CreateCacheRepository t c x s).ctx = x ∧
    (CreateCacheRepository t c x s).self = s := by
  exact ⟨rfl, rfl, rfl⟩

/-- C7: on a repository without subtype override, a key the store reports
as absent (`redis.Nil`) makes `Get` return the zero value together with a
nil error, while a transport failure makes `Get` return that failure as a
non-nil error, so callers can distinguish the two outcomes. -/
theorem C7_get_absent_is_nil_error
    (u : Unmarshal) (repo : abstractCacheRepositoryImpl) (c : ClientModel)
    (key : String) (hself : repo.self = none) (hclient : repo.client = some c) :
    (c.Get key = RedisReply.nilReply →
      repo.Get u key = MRes.ret (zeroValue repo.valueType) none [StoreCall.get key]) ∧
    (∀ e, c.Get key = RedisReply.fail e →
      repo.Get u key = MRes.ret (zeroValue repo.valueType) (some e) [StoreCall.get key]) := by
  constructor
  · intro h
    simp [abstractCacheRepositoryImpl.Get, hself, hclient, h]
  · intro e h
    simp [abstractCacheRepositoryImpl.Get, hself, hclient, h]

/-- C7 witness: on the concrete repository `plainRepo`, whose store
reports every key absent, `Get "user:1"` returns the zero value and a nil
error. -/
theorem C7_witness :
    plainRepo.Get noUnmarshal "user:1" =
      MRes.ret (zeroValue GoType.structT) none [StoreCall.get "user:1"] :=
  (C7_get_absent_is_nil_error noUnmarshal plainRepo constClient "user:1" rfl rfl).1 rfl

/-- C10 counterexample: the claim says the primitive decode branch panics
for every type other than `string`, but for the interface type `any` —
which is not `string` — the type assertion succeeds and
`deserialize[any](data, true)` returns the string unchanged with a nil
error. -/
theorem C10_any_assertion_succeeds :
    GoType.anyT ≠ GoType.stringT ∧
    deserialize noUnmarshal GoType.anyT "abc" true =
      PRes.ret (GoVal.str "abc") none := by
  exact ⟨by decide, rfl⟩

/-- C10 amended: for every non-interface type `T` other than `string` (in
this model: every `GoType` other than `stringT` and the interface type
`anyT`), `deserialize[T]` with `isPrimitive = true` panics in the
unchecked type assertion `any(string(data)).(T)` instead of returning a
`TypeMismatchError`; the primitive branch is total only when `T` is
`string` or an interface type satisfied by strings. -/
theorem C10_primitive_decode_panics_for_concrete_nonstring
    (t : GoType) (u : Unmarshal) (data : String)
    (h1 : t ≠ GoType.stringT) (h2 : t ≠ GoType.anyT) :
    deserialize u t data true = PRes.panicked interfaceConversionPanic := by
  have hcond : ¬ (t = GoType.anyT ∨ dynType (GoVal.str data) = t) := by
    rintro (h | h)
    · exact h2 h
    · exact h1 h.symm
  simp [deserialize, typeAssert, hcond]

/-- C10 witness: instantiating the amended theorem at `T = int` and the
data `"7"`: the primitive decode branch panics. -/
theorem C10_witness :
    deserialize noUnmarshal GoType.intT "7" true =
      PRes.panicked interfaceConversionPanic :=
  C10_primitive_decode_panics_for_concrete_nonstring GoType.intT noUnmarshal "7"
    (by decide) (by decide)

/-- Every pipeline builder is a no-op on a pipeline that already holds a
sticky error, and both terminal calls return that error without submitting
anything. -/
theorem pipeline_builders_noop_of_err (p : CachePipeline) (e : GoErr)
    (he : p.err = some e) :
    (∀ m k f v, p.HSet m k f v = p) ∧
    (∀ m k fs, p.HMSet m k fs = p) ∧
    (∀ k fs, p.HDel k fs = p) ∧
    (∀ ks, p.Del ks = p) ∧
    (∀ m k v x, p.Set m k v x = p) ∧
    (∀ k x, p.Expire k x = p) ∧
    (∀ k n, p.IncrBy k n = p) ∧
    (∀ k n, p.DecrBy k n = p) ∧
    (∀ px, p.Exec px = (Except.error e, [])) ∧
    (∀ px, p.ExecAndDiscard px = (some e, [])) := by
  refine ⟨?_, ?_, ?_, ?_, ?_, ?_, ?_, ?_, ?_, ?_⟩ <;>
    intros <;>
    simp [CachePipeline.HSet, CachePipeline.HMSet, CachePipeline.HDel,
      CachePipeline.Del, CachePipeline.Set, CachePipeline.Expire,
      CachePipeline.IncrBy, CachePipeline.DecrBy, CachePipeline.Exec,
      CachePipeline.ExecAndDiscard, he]

/-- A marshal oracle that rejects every value it is given, standing for a
value sonic cannot encode (a channel, a function, `math.Inf`, ...). -/
def failingMarshal : Marshal :=
  fun _ => .error (.msg "unsupported value type")

/-- C3 counterexample: the claim says `Exec` returns THE FIRST VALIDATION
ERROR of the failed builder step, but `HSet` with an empty key does not
return after recording the validation error (cachePipeline.go:27-29): it
still serializes the value, and when that serialization fails the
serialization error overwrites the validation error in the same call, so
`Exec` returns the serialization error instead. -/
theorem C3_validation_error_overwritten :
    (emptyPipeline.HSet failingMarshal "" "f" (GoVal.structV "chan")).err =
      some (GoErr.msg "unsupported value type") ∧
    (emptyPipeline.HSet failingMarshal "" "f" (GoVal.structV "chan")).Exec pipeExecOk =
      (Except.error (GoErr.msg "unsupported value type"), []) ∧
    GoErr.msg "unsupported value type" ≠
      GoErr.msg "key and field must not be empty" := by
  exact ⟨rfl, rfl, by decide⟩

/-- C3 amended: calling the pipeline's `HSet` with an empty key or field
on an error-free pipeline makes the pipeline sticky-errored: the recorded
sticky error is the validation error when the value serializes, and the
serialization error when it does not (the missing early return lets it
overwrite the validation error); in either case every subsequent builder
call returns the pipeline unchanged — recording no command — and `Exec`
(and `ExecAndDiscard`) return the sticky error while submitting nothing
to the store. -/
theorem C3_pipeline_sticky_error
    (m : Marshal) (p : CachePipeline) (key field : String) (value : GoVal)
    (hclean : p.err = none) (hbad : key = "" ∨ field = "") :
    ((∀ d, serialize m value = Except.ok d →
      (p.HSet m key field value).err =
        some (GoErr.msg "key and field must not be empty")) ∧
     (∀ e0, serialize m value = Except.error e0 →
      (p.HSet m key field value).err = some e0)) ∧
    (∀ e, (p.HSet m key field value).err = some e →
      (∀ m2 k f v, (p.HSet m key field value).HSet m2 k f v = p.HSet m key field value) ∧
      (∀ m2 k fs, (p.HSet m key field value).HMSet m2 k fs = p.HSet m key field value) ∧
      (∀ k fs, (p.HSet m key field value).HDel k fs = p.HSet m key field value) ∧
      (∀ ks, (p.HSet m key field value).Del ks = p.HSet m key field value) ∧
      (∀ m2 k v x, (p.HSet m key field value).Set m2 k v x = p.HSet m key field value) ∧
      (∀ k x, (p.HSet m key field value).Expire k x = p.HSet m key field value) ∧
      (∀ k n, (p.HSet m key field value).IncrBy k n = p.HSet m key field value) ∧
      (∀ k n, (p.HSet m key field value).DecrBy k n = p.HSet m key field value) ∧
      (∀ px, (p.HSet m key field value).Exec px = (Except.error e, [])) ∧
      (∀ px, (p.HSet m key field value).ExecAndDiscard px = (some e, []))) := by
  refine ⟨⟨?_, ?_⟩, ?_⟩
  · intro d hser
    simp [CachePipeline.HSet, hclean, hser, if_pos hbad]
  · intro e0 hser
    simp [CachePipeline.HSet, hclean, hser, if_pos hbad]
  · intro e he
    exact pipeline_builders_noop_of_err (p.HSet m key field value) e he

/-- C3 witness: on the concrete empty pipeline, `HSet` with an empty key
sets the sticky validation error, a subsequent `HSet` is a no-op, and
`Exec` returns the validation error with no submission. -/
theorem C3_witness :
    (emptyPipeline.HSet noMarshal "" "f" (GoVal.str "v")).err =
      some (GoErr.msg "key and field must not be empty") ∧
    (emptyPipeline.HSet noMarshal "" "f" (GoVal.str "v")).HSet noMarshal "k" "g"
        (GoVal.str "w") = emptyPipeline.HSet noMarshal "" "f" (GoVal.str "v") ∧
    (emptyPipeline.HSet noMarshal "" "f" (GoVal.str "v")).Exec pipeExecOk =
      (Except.error (GoErr.msg "key and field must not be empty"), []) := by
  have h := C3_pipeline_sticky_error noMarshal emptyPipeline "" "f" (GoVal.str "v")
    rfl (Or.inl rfl)
  have herr := h.1.1 "v" rfl
  have hs := h.2 (GoErr.msg "key and field must not be empty") herr
  exact ⟨herr, hs.1 noMarshal "k" "g" (GoVal.str "w"),
    hs.2.2.2.2.2.2.2.2.1 pipeExecOk⟩

/-- C4 counterexample: the claim says `HMSet` with an empty key returns a
validation error before any network call, but on the concrete repository
the call `HMSet("", ...)` issues a store round trip (its call trace is the
non-empty `[hmset "" ...]`) and returns a nil error. -/
theorem C4_hmset_empty_key_hits_store :
    plainRepo.HMSet noMarshal "" [("f", GoVal.str "v")] =
      MRes.ret () none [StoreCall.hmset "" [("f", "v")]] ∧
    [StoreCall.hmset "" [("f", "v")]] ≠ ([] : List StoreCall) := by
  exact ⟨rfl, by decide⟩

/-- C4 amended: the repository's `HSet` rejects an empty key or field with
the validation error before any store access (its call trace is empty,
whatever the client is), but `HMSet` performs no such validation: whenever
its fields serialize, it submits to the store even with an empty key. -/
theorem C4_hset_validates_hmset_does_not :
    (∀ (m : Marshal) (repo : abstractCacheRepositoryImpl) (key field : String)
      (value : GoVal), repo.self = none → (key = "" ∨ field = "") →
      repo.HSet m key field value =
        MRes.ret () (some (GoErr.msg "key and field must not be empty")) []) ∧
    (∀ (m : Marshal) (repo : abstractCacheRepositoryImpl) (c : ClientModel)
      (key : String) (fields : List (String × GoVal)) (sf : List (String × String)),
      repo.self = none → repo.client = some c →
      abstractCacheRepositoryImpl.hmsetSerializeFields m fields = Except.ok sf →
      repo.HMSet m key fields =
        MRes.ret () (c.HMSet key sf) [StoreCall.hmset key sf]) := by
  constructor
  · intro m repo key field value hself hbad
    simp [abstractCacheRepositoryImpl.HSet, hself, if_pos hbad]
  · intro m repo c key fields sf hself hclient hser
    simp [abstractCacheRepositoryImpl.HMSet, hself, hclient, hser]

/-- C4 witness: on the concrete repository, `HSet` with an empty key
returns the validation error with an empty call trace, and `HMSet` with an
empty key issues its store call. -/
theorem C4_witness :
    plainRepo.HSet noMarshal "" "f" (GoVal.str "v") =
      MRes.ret () (some (GoErr.msg "key and field must not be empty")) [] ∧
    plainRepo.HMSet noMarshal "" [("f", GoVal.str "v")] =
      MRes.ret () none [StoreCall.hmset "" [("f", "v")]] := by
  have h := C4_hset_validates_hmset_does_not
  exact ⟨h.1 noMarshal plainRepo "" "f" (GoVal.str "v") rfl (Or.inl rfl),
    h.2 noMarshal plainRepo constClient "" [("f", GoVal.str "v")] [("f", "v")]
      rfl rfl rfl⟩

/-- Cursor chain of a scan oracle `f` (each cursor maps to the returned
batch and the next cursor): starting at `cursor`, the successive rounds
yield the batches `bs` while visiting the cursors `cs`, and stop at the
first round whose returned cursor is 0. -/
inductive ScanPath (f : Nat → List String × Nat) :
    Nat → List (List String) → List Nat → Prop
  | last (cursor : Nat) (h : (f cursor).2 = 0) :
      ScanPath f cursor [(f cursor).1] [cursor]
  | step (cursor : Nat) (h : ¬ (f cursor).2 = 0) {bs : List (List String)}
      {cs : List Nat} (tail : ScanPath f (f cursor).2 bs cs) :
      ScanPath f cursor ((f cursor).1 :: bs) (cursor :: cs)

/-- The scan loop of `GetKeysByPatterns`, run along a terminating cursor
chain with exactly as much fuel as the chain has rounds, appends the
concatenation of all batches to its accumulator and issues one scan call
of count 100 per visited cursor. -/
theorem scanLoop_eq_of_scanPath (c : ClientModel) (pattern : String)
    (f : Nat → List String × Nat)
    (hscan : ∀ cur, c.Scan cur pattern 100 = Except.ok (f cur))
    {cursor : Nat} {bs : List (List String)} {cs : List Nat}
    (hpath : ScanPath f cursor bs cs) :
    ∀ acc calls, abstractCacheRepositoryImpl.scanLoop c pattern bs.length cursor acc calls =
      some (MRes.ret (acc ++ bs.flatten) none
        (calls ++ cs.map fun cur => StoreCall.scan cur pattern 100)) := by
  induction hpath with
  | last cur h =>
    intro acc calls
    simp [abstractCacheRepositoryImpl.scanLoop, hscan cur, h]
  | step cur h tail ih =>
    intro acc calls
    rw [List.length_cons, abstractCacheRepositoryImpl.scanLoop, hscan cur]
    simp only [h, if_false, ih]
    simp

/-- A store oracle whose scan needs two cursor rounds and returns the key
"a" in both of them. -/
def dupScanClient : ClientModel :=
  { constClient with
    Scan := fun cursor _ _ =>
      if cursor = 0 then .ok (["a"], 5) else .ok (["a"], 0) }

/-- A repository without subtype override bound to `dupScanClient`. -/
def dupScanRepo : abstractCacheRepositoryImpl :=
  CreateCacheRepository GoType.structT (some dupScanClient) (some ()) none

/-- C5 counterexample: the claim promises a duplicate-free union, but on a
store whose scan rounds return the key "a" twice across two cursor rounds,
`GetKeysByPatterns` returns `["a", "a"]`, which has duplicates: the code
never deduplicates. -/
theorem C5_scan_duplicates_not_removed :
    dupScanRepo.GetKeysByPatterns "p" 2 =
      some (MRes.ret ["a", "a"] none
        [StoreCall.scan 0 "p" 100, StoreCall.scan 5 "p" 100]) ∧
    ¬ List.Nodup ["a", "a"] := by
  exact ⟨rfl, by decide⟩

/-- C5 amended: on a repository without subtype override whose scan oracle
follows a terminating cursor chain, `GetKeysByPatterns` issues exactly one
scan call of count 100 per visited cursor, starting from cursor 0 and
stopping when the returned cursor is 0 again, and returns the
concatenation of all batches (so the result is duplicate-free exactly when
that concatenation is: no deduplication is performed). -/
theorem C5_scan_concatenates_batches
    (repo : abstractCacheRepositoryImpl) (c : ClientModel) (pattern : String)
    (f : Nat → List String × Nat) (bs : List (List String)) (cs : List Nat)
    (hself : repo.self = none) (hclient : repo.client = some c)
    (hscan : ∀ cur, c.Scan cur pattern 100 = Except.ok (f cur))
    (hpath : ScanPath f 0 bs cs) :
    repo.GetKeysByPatterns pattern bs.length =
      some (MRes.ret bs.flatten none
        (cs.map fun cur => StoreCall.scan cur pattern 100)) := by
  have h := scanLoop_eq_of_scanPath c pattern f hscan hpath [] []
  simp only [List.nil_append] at h
  simp [abstractCacheRepositoryImpl.GetKeysByPatterns, hself, hclient, h]

/-- C5 witness: on the concrete repository whose store exhausts the scan
in a single round with an empty batch, the result is the empty key list
obtained from one scan call at cursor 0 with count 100. -/
theorem C5_witness :
    plainRepo.GetKeysByPatterns "p" 1 =
      some (MRes.ret [] none [StoreCall.scan 0 "p" 100]) :=
  C5_scan_concatenates_batches plainRepo constClient "p" (fun _ => ([], 0))
    [[]] [0] rfl rfl (fun _ => rfl) (ScanPath.last 0 rfl)

/-- A subtype implementation whose every method answers with a
distinctive marker, used to observe whether calls are forwarded to it. -/
def markerSelf : SelfMethods where
  Get := fun _ => .ret (GoVal.str "override") none []
  GetKeysByPatterns := fun _ => .ret ["override"] none []
  Set := fun _ _ _ => .ret () (some (.msg "override")) []
  Del := fun _ => .ret () (some (.msg "override")) []
  Exists := fun _ => .ret true none []
  HGet := fun _ _ => .ret (some (GoVal.str "override")) none []
  HGetAll := fun _ => .ret [("override", GoVal.str "1")] none []
  HScan := fun _ _ _ => .ret [("override", "1")] none []
  HGetFields := fun _ _ => .ret [("override", GoVal.str "1")] none []
  HSet := fun _ _ _ => .ret () (some (.msg "override")) []
  HMSet := fun _ _ => .ret () (some (.msg "override")) []
  HDel := fun _ _ => .ret () (some (.msg "override")) []
  HExists := fun _ _ => .ret true none []

/-- A repository whose stored self reference is a different object than
the repository (`repo.self != repo`), behaving as `markerSelf`. -/
def overriddenRepo : abstractCacheRepositoryImpl :=
  CreateCacheRepository GoType.structT (some constClient) (some ()) (some markerSelf)

/-- C8 counterexample: the claim says every operation forwards to the
stored self reference when it differs from the receiver, but `HScan` on
the concrete repository with the marker self executes the default body
against the store (one `hscan` call, empty result) instead of returning
the self reference's marker result. -/
theorem C8_hscan_ignores_self :
    overriddenRepo.self = some markerSelf ∧
    markerSelf.HScan "k" "p" 10 = MRes.ret [("override", "1")] none [] ∧
    overriddenRepo.HScan "k" "p" 10 1 =
      some (MRes.ret [] none [StoreCall.hscan "k" 0 "p" 10]) ∧
    overriddenRepo.HScan "k" "p" 10 1 ≠ some (markerSelf.HScan "k" "p" 10) := by
  refine ⟨rfl, rfl, rfl, by decide⟩

/-- C8 amended: when the stored self reference differs from the receiver,
the default implementation forwards `Get`, `GetKeysByPatterns`, `Set`,
`Del`, `Exists`, `HGet`, `HGetFields`, `HSet`, `HMSet`, `HDel` and
`HExists` to the self reference and returns its result — but NOT `HScan`
and `HGetAll`, whose bodies ignore the self reference entirely (they
behave exactly as on a repository whose self reference is the receiver
itself), so overrides of those two methods do not take effect on calls
reaching the default implementation. -/
theorem C8_dispatch_forwards_except_hscan_hgetall
    (repo : abstractCacheRepositoryImpl) (s : SelfMethods)
    (hself : repo.self = some s) (u : Unmarshal) (m : Marshal)
    (key field pattern : String) (value : GoVal) (x count : Int)
    (fields : List String) (hfields : List (String × GoVal))
    (fuel : Nat) :
    repo.Get u key = s.Get key ∧
    repo.GetKeysByPatterns pattern fuel = some (s.GetKeysByPatterns pattern) ∧
    repo.Set m key value x = s.Set key value x ∧
    repo.Del key = s.Del key ∧
    repo.Exists key = s.Exists key ∧
    repo.HGet u key field = s.HGet key field ∧
    repo.HGetFields u key fields = s.HGetFields key fields ∧
    repo.HSet m key field value = s.HSet key field value ∧
    repo.HMSet m key hfields = s.HMSet key hfields ∧
    repo.HDel key field = s.HDel key field ∧
    repo.HExists key field = s.HExists key field ∧
    repo.HScan key pattern count fuel =
      abstractCacheRepositoryImpl.HScan
        { repo with self := none } key pattern count fuel ∧
    repo.HGetAll u key =
      abstractCacheRepositoryImpl.HGetAll u { repo with self := none } key := by
  refine ⟨?_, ?_, ?_, ?_, ?_, ?_, ?_, ?_, ?_, ?_, ?_, ?_, ?_⟩
  · simp [abstractCacheRepositoryImpl.Get, hself]
  · simp [abstractCacheRepositoryImpl.GetKeysByPatterns, hself]
  · simp [abstractCacheRepositoryImpl.Set, hself]
  · simp [abstractCacheRepositoryImpl.Del, hself]
  · simp [abstractCacheRepositoryImpl.Exists, hself]
  · simp [abstractCacheRepositoryImpl.HGet, hself]
  · simp [abstractCacheRepositoryImpl.HGetFields, hself]
  · simp [abstractCacheRepositoryImpl.HSet, hself]
  · simp [abstractCacheRepositoryImpl.HMSet, hself]
  · simp [abstractCacheRepositoryImpl.HDel, hself]
  · simp [abstractCacheRepositoryImpl.HExists, hself]
  · rfl
  · rfl

/-- C8 witness: on the concrete overridden repository, `Get` and `HDel`
return the marker self reference's results, and `HScan` returns the
default body's result. -/
theorem C8_witness :
    overriddenRepo.Get noUnmarshal "k" = MRes.ret (GoVal.str "override") none [] ∧
    overriddenRepo.HDel "k" "f" = MRes.ret () (some (GoErr.msg "override")) [] ∧
    overriddenRepo.HScan "k" "p" 10 1 =
      abstractCacheRepositoryImpl.HScan
        { overriddenRepo with self := none } "k" "p" 10 1 := by
  have h := C8_dispatch_forwards_except_hscan_hgetall overriddenRepo markerSelf
    rfl noUnmarshal noMarshal "k" "f" "p" (GoVal.str "v") 0 10 [] [] 1
  exact ⟨h.1, h.2.2.2.2.2.2.2.2.2.1, h.2.2.2.2.2.2.2.2.2.2.2.1⟩

/-- Trace of `k` failed connection attempts starting at attempt `index`:
each failed attempt is followed by a 3-second sleep. -/
def retryTraceFrom (index : Nat) : Nat → List RetryEvent
  | 0 => []
  | k + 1 => .attempt index :: .sleep 3 :: retryTraceFrom (index + 1) k

/-- The retry loop, given enough remaining iterations, stops at the first
successful attempt and returns that connection, having slept 3 seconds
after each of the `k` preceding failures. -/
theorem connectLoop_first_success (connect : Nat → Except GoErr Conn) :
    ∀ (k index remaining : Nat) (conn : Conn), k < remaining →
      (∀ j, j < k → ∃ e, connect (index + j) = Except.error e) →
      connect (index + k) = Except.ok conn →
      connectLoop connect index remaining =
        (Except.ok conn, retryTraceFrom index k ++ [RetryEvent.attempt (index + k)]) := by
  intro k
  induction k with
  | zero =>
    intro index remaining conn hlt hfail hok
    obtain ⟨r, rfl⟩ := Nat.exists_eq_add_of_lt hlt
    rw [Nat.add_zero] at hok
    simp [connectLoop, hok, retryTraceFrom]
  | succ k ih =>
    intro index remaining conn hlt hfail hok
    obtain ⟨r, rfl⟩ := Nat.exists_eq_add_of_lt hlt
    obtain ⟨e0, he0⟩ := hfail 0 (Nat.succ_pos k)
    rw [Nat.add_zero] at he0
    have hidx : index + 1 + k = index + (k + 1) := by omega
    have hrec := ih (index + 1) (k + r + 1) conn
      (Nat.lt_add_of_pos_right (Nat.succ_pos r))
      (fun j hj => by
        obtain ⟨e, he⟩ := hfail (j + 1) (Nat.succ_lt_succ hj)
        refine ⟨e, ?_⟩
        have h2 : index + 1 + j = index + (j + 1) := by omega
        rw [h2, he])
      (by rw [hidx]; exact hok)
    have hrem : k + 1 + r + 1 = (k + r + 1) + 1 := by omega
    rw [hrem, connectLoop, he0]
    have hne : ¬ (k + r + 1 = 0) := Nat.succ_ne_zero _
    simp [hne, hrec, retryTraceFrom, hidx]

/-- When every attempt the loop can make fails, the loop returns the last
failure after sleeping 3 seconds behind each of the attempts. -/
theorem connectLoop_all_fail (connect : Nat → Except GoErr Conn) :
    ∀ (remaining index : Nat), 0 < remaining →
      (∀ j, j < remaining → ∃ e, connect (index + j) = Except.error e) →
      ∃ e, connectLoop connect index remaining =
        (Except.error e, retryTraceFrom index remaining) := by
  intro remaining
  induction remaining with
  | zero => intro index h; exact absurd h (Nat.lt_irrefl 0)
  | succ r ih =>
    intro index hpos hfail
    obtain ⟨e0, he0⟩ := hfail 0 (Nat.succ_pos r)
    rw [Nat.add_zero] at he0
    by_cases hr : r = 0
    · subst hr
      exact ⟨e0, by simp [connectLoop, he0, retryTraceFrom]⟩
    · obtain ⟨e, he⟩ := ih (index + 1) (Nat.pos_of_ne_zero hr)
        (fun j hj => by
          obtain ⟨e', he'⟩ := hfail (j + 1) (Nat.succ_lt_succ hj)
          refine ⟨e', ?_⟩
          have h2 : index + 1 + j = index + (j + 1) := by omega
          rw [h2, he'])
      refine ⟨e, ?_⟩
      rw [connectLoop, he0]
      simp [hr, he, retryTraceFrom]

/-- C9: `NewConnection` makes at most 5 attempts with a 3-second sleep
after each failure: if some attempt `k < 5` is the first to succeed, it
stops there and returns that connection wrapped; if all 5 attempts fail,
it gives up and returns the fixed error instead of a connection, after
exactly 5 attempts. -/
theorem C9_newConnection_retry (connect : Nat → Except GoErr Conn) :
    (∀ (k : Nat) (conn : Conn), k < 5 →
      (∀ j, j < k → ∃ e, connect j = Except.error e) →
      connect k = Except.ok conn →
      NewConnection connect =
        (Except.ok { Gorm := conn.Gorm },
          retryTraceFrom 0 k ++ [RetryEvent.attempt k])) ∧
    ((∀ j, j < 5 → ∃ e, connect j = Except.error e) →
      NewConnection connect =
        (Except.error (GoErr.msg "connection failed after multiple attempts"),
          retryTraceFrom 0 5)) := by
  constructor
  · intro k conn hk hfail hok
    have h := connectLoop_first_success connect k 0 5 conn hk
      (fun j hj => by simpa using hfail j hj) (by simpa using hok)
    simp [NewConnection, h]
  · intro hfail
    obtain ⟨e, he⟩ := connectLoop_all_fail connect 5 0 (by decide)
      (fun j hj => by simpa using hfail j hj)
    simp [NewConnection, he]

/-- A connection driver that fails on the first two attempts and succeeds
on the third. -/
def flakyConnect : Nat → Except GoErr Conn :=
  fun i => if i < 2 then .error (.msg "connection refused") else .ok { Gorm := 7 }

/-- C9 witness: on the concrete flaky driver, `NewConnection` fails twice,
sleeps 3 seconds after each failure, succeeds on the third attempt and
returns that connection; and on an always-failing driver it gives up with
the fixed error after 5 attempts. -/
theorem C9_witness :
    NewConnection flakyConnect =
      (Except.ok { Gorm := 7 },
        [RetryEvent.attempt 0, RetryEvent.sleep 3, RetryEvent.attempt 1,
          RetryEvent.sleep 3, RetryEvent.attempt 2]) ∧
    NewConnection (fun _ => Except.error (GoErr.msg "down")) =
      (Except.error (GoErr.msg "connection failed after multiple attempts"),
        [RetryEvent.attempt 0, RetryEvent.sleep 3, RetryEvent.attempt 1,
          RetryEvent.sleep 3, RetryEvent.attempt 2, RetryEvent.sleep 3,
          RetryEvent.attempt 3, RetryEvent.sleep 3, RetryEvent.attempt 4,
          RetryEvent.sleep 3]) := by
  constructor
  · exact (C9_newConnection_retry flakyConnect).1 2 { Gorm := 7 } (by decide)
      (fun j hj => ⟨.msg "connection refused", by simp [flakyConnect, hj]⟩)
      (by simp [flakyConnect])
  · exact (C9_newConnection_retry (fun _ => Except.error (GoErr.msg "down"))).2
      (fun j hj => ⟨.msg "down", rfl⟩)

end GoStdlib
